import Mathlib

/-!
Verification of the timetable reconciliation engine of the
western-railways simulator (`Simulator/src/timetable.py` and the
service-filter pass of `Simulator/src/simulator.py`).

Embedding conventions.  Python integers are `Int`/`Nat` (no overflow is
possible on the code paths modelled here), floating point time and
distance values are `ℚ` (every number that reaches them is a small
decimal produced by `/60` or a chainage table), Python `None` is
`Option.none`, and a pandas `NaN` cell is an `Option.none` cell.  A
Python function that can raise (IndexError, KeyError, TypeError,
AssertionError, NameError) is embedded as a function returning
`Option _`, with `none` for the raising executions.  Python `dict`s are
embedded as association lists with insert-or-update semantics
(`pyDict`), which preserves the insertion order of keys like CPython.
-/

namespace WR

attribute [local semireducible] Rat.add Rat.mul Rat.sub Rat.inv

/-- `str(x)` for a cell that is either a real string or pandas `NaN`
(`str(nan) = "nan"`). -/
def pyStr : Option String → String
  | none => "nan"
  | some s => s

/-- `s.strip()`: drop leading and trailing whitespace.  (Implemented on
the character list so that it reduces inside the kernel; `String.trim`
is byte-position based.) -/
def pyStrip (s : String) : String :=
  String.mk (((s.data.dropWhile Char.isWhitespace).reverse.dropWhile
    Char.isWhitespace).reverse)

/-- `s.upper()` (ASCII, which covers every label in the data). -/
def pyUpper (s : String) : String :=
  String.mk (s.data.map Char.toUpper)

/-- Split a character list at every occurrence of `sep`
(`s.split(sep)` / `String.splitOn` for a one-character separator). -/
def splitCols (sep : Char) : List Char → List (List Char)
  | [] => [[]]
  | c :: rest =>
    if c = sep then [] :: splitCols sep rest
    else
      match splitCols sep rest with
      | [] => [[c]]
      | h :: t => (c :: h) :: t

/-- `str(x)` for a value that is either a string or Python `None`
(`str(None) = "None"`). -/
def pyStrN : Option String → String
  | none => "None"
  | some s => s

/-- Truthiness of an optional string (`if not x:` is true for `None`
and for the empty string). -/
def pyFalsyStr : Option String → Bool
  | none => true
  | some s => s = ""

/-- Substring test, Python's `pat in s` for strings. -/
def strContains (s pat : String) : Bool :=
  s.data.tails.any (fun t => pat.data.isPrefixOf t)

/-- A service identifier as stored by the parser: either an `int`
(five-digit numerals are converted with `int(...)`) or a string such as
`"ETY 5"` for a stabling placeholder. -/
inductive SID where
  | num : Int → SID
  | ety : String → SID
deriving DecidableEq

/-- `str(sid)` of a service identifier. -/
def sidStr : SID → String
  | .num n => toString n
  | .ety s => s

/-- Truthiness of an optional identifier (`if nxt:` in `followChain`). -/
def pyTruthySID : Option SID → Bool
  | none => false
  | some (.num n) => n ≠ 0
  | some (.ety s) => s ≠ ""

/-- The digits of a decimal numeral, `none` if empty or non-digit. -/
def digitsVal : List Char → Option Nat
  | [] => none
  | cs =>
    if cs.all Char.isDigit then
      some (cs.foldl (fun a c => a * 10 + (c.toNat - 48)) 0)
    else none

/-- `int(s)` on an already stripped string: optional sign followed by
one or more ASCII digits.  Returns `none` where Python raises
`ValueError`.  (CPython also allows underscores and unicode digits;
none of the data reaching this conversion uses them.) -/
def pyInt? (s : String) : Option Int :=
  match s.data with
  | '-' :: rest => (digitsVal rest).map (fun n => -(n : Int))
  | '+' :: rest => (digitsVal rest).map (fun n => (n : Int))
  | cs => (digitsVal cs).map (fun n => (n : Int))

/-- `makeRakeCyclePathsSV` (timetable.py:118-121): `int(str(x).strip())`
with the string itself as fallback on `ValueError`. -/
def strToSID (s : String) : SID :=
  match pyInt? (pyStrip s) with
  | some n => .num n
  | none => .ety (pyStrip s)

/-! ### Python dictionaries as association lists -/

section PyDict
variable {κ α : Type} [DecidableEq κ]

/-- Insert-or-update one binding, keeping the original position of an
existing key (CPython `d[k] = v`). -/
def upsert (d : List (κ × α)) (k : κ) (v : α) : List (κ × α) :=
  if d.any (fun p => p.1 = k) then
    d.map (fun p => if p.1 = k then (p.1, v) else p)
  else d ++ [(k, v)]

/-- Build a `dict` from a list of bindings (later bindings overwrite
earlier ones, first position is kept). -/
def pyDict (l : List (κ × α)) : List (κ × α) :=
  l.foldl (fun d p => upsert d p.1 p.2) []

/-- `d.get(k)` / `d[k]` lookup. -/
def pyGet (d : List (κ × α)) (k : κ) : Option α :=
  (d.find? (fun p => p.1 = k)).map (·.2)

end PyDict

/-! ### Time codec (`StationEvent._timeToMinutes`, timetable.py:732-747) -/

/-- One `strptime` numeric field: one or two ASCII digits. -/
def parseField : List Char → Option Nat
  | [c] => if c.isDigit then some (c.toNat - 48) else none
  | [c, d] =>
    if c.isDigit && d.isDigit then some ((c.toNat - 48) * 10 + (d.toNat - 48))
    else none
  | _ => none

/-- `datetime.strptime(s, "%H:%M:%S")`, restricted to what `datetime`
accepts: hour 0-23, minute 0-59, second 0-59 (the leap seconds that
`_strptime`'s regex would admit are rejected by the `datetime`
constructor, hence also raise `ValueError`). -/
def parseHMS (s : String) : Option (Nat × Nat × Nat) :=
  match splitCols ':' s.data with
  | [hs, ms, ss] => do
    let h ← parseField hs
    let m ← parseField ms
    let sec ← parseField ss
    if h ≤ 23 && m ≤ 59 && sec ≤ 59 then some (h, m, sec) else none
  | _ => none

/-- `datetime.strptime(s, "%H:%M")`. -/
def parseHM (s : String) : Option (Nat × Nat × Nat) :=
  match splitCols ':' s.data with
  | [hs, ms] => do
    let h ← parseField hs
    let m ← parseField ms
    if h ≤ 23 && m ≤ 59 then some (h, m, 0) else none
  | _ => none

/-- The two-format parse attempt of `_timeToMinutes` (timetable.py:736-742):
strip, try `"%H:%M:%S"`, then `"%H:%M"`; `none` when both raise. -/
def parseClock (s : String) : Option (Nat × Nat × Nat) :=
  match parseHMS (pyStrip s) with
  | some r => some r
  | none => parseHM (pyStrip s)

/-- Minutes since midnight as computed at timetable.py:744:
`t.hour * 60 + t.minute + t.second / 60` (true division, hence `ℚ`). -/
def minutesSinceMidnight (h m sec : Nat) : ℚ :=
  (h : ℚ) * 60 + (m : ℚ) + (sec : ℚ) / 60

/-- `StationEvent._timeToMinutes` (timetable.py:732-747): parse the
clock string and shift values before the 02:45 traffic-day start by one
day (1440 minutes). -/
def timeToMinutes (timeStr : String) : Option ℚ :=
  if timeStr = "" then none
  else
    match parseClock timeStr with
    | none => none
    | some (h, m, sec) =>
      let minutes := minutesSinceMidnight h m sec
      if minutes < 165 then some (minutes + 1440) else some minutes

/-! ### The time cell pattern `rTimePattern` (timetable.py:768-771)

`(?:\d{1,2}/\d{1,2}/\d{2,4}\s+)?(?P<time>[01]?\d|2[0-3]):[0-5]\d(?::[0-5]\d)?$`

The pattern is end-anchored, so `re.match` holds iff the whole string
(up to an optional final newline, which `$` tolerates) fits it, and
`re.search` holds iff some suffix fits it.  Alternation and optional
groups are embedded as a union over the alternatives, which coincides
with backtracking semantics for an end-anchored boolean match.  `\d` and
`\s` are modelled as ASCII digits/whitespace. -/

/-- `$`: end of string, or just before a final newline. -/
def atEnd (cs : List Char) : Bool := cs.isEmpty || cs = ['\n']

/-- `[0-5]\d`. -/
def msPair (a b : Char) : Bool := ('0' ≤ a && a ≤ '5') && b.isDigit

/-- `:[0-5]\d$` (the optional seconds group). -/
def matchColonSS : List Char → Bool
  | ':' :: a :: b :: rest => msPair a b && atEnd rest
  | _ => false

/-- `:[0-5]\d(?::[0-5]\d)?$`. -/
def matchColonMS : List Char → Bool
  | ':' :: a :: b :: rest => msPair a b && (atEnd rest || matchColonSS rest)
  | _ => false

/-- `([01]?\d|2[0-3]):[0-5]\d(?::[0-5]\d)?$`. -/
def timeCoreMatch : List Char → Bool
  | [] => false
  | c :: rest =>
    (c.isDigit && matchColonMS rest) ||
    ((c = '0' || c = '1') &&
      (match rest with
       | d :: rest2 => d.isDigit && matchColonMS rest2
       | [] => false)) ||
    (c = '2' &&
      (match rest with
       | d :: rest2 => ('0' ≤ d && d ≤ '3') && matchColonMS rest2
       | [] => false))

/-- Remainder after consuming exactly `k` ASCII digits. -/
def dropKDigits : Nat → List Char → Option (List Char)
  | 0, cs => some cs
  | _ + 1, [] => none
  | k + 1, c :: rest => if c.isDigit then dropKDigits k rest else none

/-- All remainders after consuming between `lo` and `hi` digits
(`\d{lo,hi}` with backtracking). -/
def dropDigitsRange (lo hi : Nat) (cs : List Char) : List (List Char) :=
  (List.range (hi + 1)).filterMap
    (fun k => if lo ≤ k then dropKDigits k cs else none)

/-- All remainders after consuming at least one whitespace char (`\s+`). -/
def wsRemainders : List Char → List (List Char)
  | c :: rest => if c.isWhitespace then rest :: wsRemainders rest else []
  | [] => []

/-- The whole pattern, anchored at the start of `cs`: optional
`\d{1,2}/\d{1,2}/\d{2,4}\s+` date prefix, then the time core. -/
def rTimeFullMatch (cs : List Char) : Bool :=
  timeCoreMatch cs ||
  ((dropDigitsRange 1 2 cs).any fun r1 =>
    match r1 with
    | '/' :: r2 =>
      (dropDigitsRange 1 2 r2).any fun r3 =>
        match r3 with
        | '/' :: r4 =>
          (dropDigitsRange 2 4 r4).any fun r5 =>
            (wsRemainders r5).any timeCoreMatch
        | _ => false
    | _ => false)

/-- `rTimePattern.match(s)` as a boolean (the pattern is `$`-anchored,
so a match from position 0 must cover the string). -/
def rTimeMatch (s : String) : Bool := rTimeFullMatch s.data

/-- A match never consumes a final newline (its last token is a digit),
so `group(0)` drops it. -/
def dropTrailingNl (t : List Char) : List Char :=
  if t.getLast? = some '\n' then t.dropLast else t

/-- `rTimePattern.search(s)` with `match.group(0)`: the leftmost suffix
of `s` fitting the end-anchored pattern, `none` when there is none. -/
def searchGroup0 (s : String) : Option String :=
  (s.data.tails.find? rTimeFullMatch).map (fun t => String.mk (dropTrailingNl t))

/-! ### Station events and the event sequencer
(`Service.generateStationEvents`, timetable.py:609-698) -/

inductive EventType where
  | ARRIVAL
  | DEPARTURE
deriving DecidableEq

structure SEvent where
  atStation : String
  atTime : Option ℚ
  eTypeArg : EventType
  eType : Option EventType := none
  render : Bool := true
deriving DecidableEq

/-- `StationEvent.__init__` (timetable.py:722-730): station name,
`_timeToMinutes` of the time string, and the constructor's `type`
argument.  NOTE: the source stores `None` into `self.eType` (line 729),
ignoring the argument; the embedding keeps the stored field `eType`
(always `none`) and records the received argument as `eTypeArg`, so that
properties about which kind of event was emitted remain statable. -/
def mkStationEvent (st : String) (timeStr : String) (ty : EventType) : SEvent :=
  { atStation := st, atTime := timeToMinutes timeStr, eTypeArg := ty,
    eType := none, render := true }

/-- The two label columns of one direction's grid: `sheet.iat[r, 0]`
(station labels) and `sheet.iat[r, 1]` (arrival/departure indicator).
Rows are indexed by `Int` as in the source's uniform row indexing; a
`none` cell is pandas `NaN`. -/
structure WttSheet where
  stationAt : Int → Option String
  indAt : Int → Option String

/-- `pd.isna(x) or not str(x).strip()` for a label cell. -/
def isBlankCell : Option String → Bool
  | none => true
  | some s => pyStrip s = ""

/-- Station label resolution for one row of `generateStationEvents`
(timetable.py:623-655): walk up to two rows above a blank label, apply
the two hardcoded alias fixes, and for a label containing `REVERSED`
reuse the station of the last emitted event (an IndexError — `none` —
when there is none).  `stations` is the key set of the station
directory.  Returns the final `stName.strip().upper()`. -/
def resolveStation (sheet : WttSheet) (stations : List String)
    (events : List SEvent) (rowIdx : Int) : Option String :=
  let st0 := sheet.stationAt rowIdx
  let st1 :=
    if isBlankCell st0 then
      let a := sheet.stationAt (rowIdx - 1)
      if isBlankCell a then sheet.stationAt (rowIdx - 2) else a
    else st0
  let st2 :=
    if pyStrip (pyStr st1) = "M\x27BAI CENTRAL (L)" then some ("M\x27BAI CENTRAL(L)")
    else st1
  let st3 :=
    if pyUpper (pyStrip (pyStr st2)) = "KANDIVLI" then some ("KANDIVALI") else st2
  if stations.contains (pyStrip (pyStr st3)) then
    match st3 with
    | none => none
    | some s => some (pyUpper (pyStrip s))
  else if strContains (pyUpper (pyStr st3)) ("REVERSED") then
    match events.getLast? with
    | none => none
    | some e => some (pyUpper (pyStrip e.atStation))
  else
    match st3 with
    | none => none
    | some s => some (pyUpper (pyStrip s))

/-- One iteration of the row loop of `generateStationEvents`
(timetable.py:619-694).  `svcCell` is this service's raw column.  A cell
without a time match emits nothing; an `A`-indicator row emits an
arrival and, when the next row is a `D`-indicator row whose cell is a
valid time, a paired departure at the same station; any other indicator
emits a single arrival-kind event.  `none` models the raising
executions of the source (station resolution failure). -/
def emitStep (sheet : WttSheet) (svcCell : Int → Option String)
    (stations : List String) (events : List SEvent) (rowIdx : Int) :
    Option (List SEvent) :=
  match searchGroup0 (pyStr (svcCell rowIdx)) with
  | none => some events
  | some tCell =>
    match resolveStation sheet stations events rowIdx with
    | none => none
    | some stName =>
      let isATime := sheet.indAt rowIdx = some ("A")
      if isATime then
        let e1 := mkStationEvent stName (pyStrip tCell) .ARRIVAL
        let isDTime := sheet.indAt (rowIdx + 1) = some ("D")
        let events1 := events ++ [e1]
        if isDTime then
          let tDep := pyStrip (pyStr (svcCell (rowIdx + 1)))
          if rTimeMatch tDep then
            some (events1 ++ [mkStationEvent stName tDep .DEPARTURE])
          else some events1
        else some events1
      else some (events ++ [mkStationEvent stName (pyStrip tCell) .ARRIVAL])

/-- `Service.generateStationEvents` (timetable.py:609-698) for one
service column: fold `emitStep` over the column's row indices in
traversal order, starting from the service's (initially empty) event
list. -/
def generateStationEvents (sheet : WttSheet) (svcCell : Int → Option String)
    (stations : List String) (rows : List Int) : Option (List SEvent) :=
  rows.foldlM (emitStep sheet svcCell stations) []

/-! ### Length computation (`Service.computeLengthKm`, timetable.py:597-607) -/

/-- The loop of `computeLengthKm`: accumulate `|dprev - d|` over the
remaining events; `none` is the `KeyError` of a station absent from the
distance map. -/
def lengthAccum (dmap : String → Option ℚ) : List SEvent → ℚ → ℚ → Option ℚ
  | [], _, l => some l
  | e :: es, dprev, l =>
    match dmap e.atStation with
    | none => none
    | some d => lengthAccum dmap es d (l + |dprev - d|)

/-- `Service.computeLengthKm` (timetable.py:597-607).  `none` models the
raising executions: `self.events[0]` on an empty event list
(IndexError) and a station missing from the map (KeyError). -/
def computeLengthKm (dmap : String → Option ℚ) (events : List SEvent) : Option ℚ :=
  match events with
  | [] => none
  | e0 :: rest =>
    match dmap e0.atStation with
    | none => none
    | some d0 => lengthAccum dmap rest d0 0

/-- `TimeTableParser.distanceMap` (timetable.py:785-793). -/
def distanceMap : List (String × ℚ) :=
  [("CHURCHGATE", 0), ("MARINE LINES", 2), ("CHARNI ROAD", 3), ("GRANT ROAD", 4),
   ("M\x27BAI CENTRAL(L)", 5), ("MAHALAKSHMI", 6), ("LOWER PAREL", 8), ("PRABHADEVI", 9),
   ("DADAR", 11), ("MATUNGA ROAD", 11.5), ("MAHIM JN.", 12), ("BANDRA", 15),
   ("KHAR ROAD", 17), ("SANTA CRUZ", 18), ("VILE PARLE", 20), ("ANDHERI", 22),
   ("JOGESHWARI", 24), ("RAM MANDIR", 25.5), ("GOREGAON", 27), ("MALAD", 30),
   ("KANDIVALI", 32), ("BORIVALI", 34), ("DAHISAR", 37), ("MIRA ROAD", 40),
   ("BHAYANDAR", 44), ("NAIGAON", 48), ("VASAI ROAD", 52), ("NALLASOPARA", 56),
   ("VIRAR", 60)]

/-- Lookup in the concrete distance map. -/
def distanceMapGet (st : String) : Option ℚ := pyGet distanceMap st

/-! ### AC-requirement detection
(`TimeTableParser.extractACRequirement`, timetable.py:1316-1324) -/

/-- `"Air" in cell or "Condition" in cell or "AC" in cell` on the
stripped cell (timetable.py:1322) — case-sensitive substring tests. -/
def hasACKeyword (c : String) : Bool :=
  strContains (pyStrip c) ("Air") || strContains (pyStrip c) ("Condition") ||
  strContains (pyStrip c) ("AC")

/-- The loop of `extractACRequirement`, carrying the `isAC` counter
(initially `-1`): return `True` at the head of the iteration *after*
the second keyword cell; otherwise bump the counter on a keyword cell. -/
def extractACGo : Int → List String → Bool
  | _, [] => false
  | isAC, c :: rest =>
    if isAC = 1 then true
    else extractACGo (if hasACKeyword c then isAC + 1 else isAC) rest

/-- `TimeTableParser.extractACRequirement` (timetable.py:1316-1324),
applied to the whole service column (the source passes the full cleaned
column, not a header slice). -/
def extractACRequirement (serviceCol : List String) : Bool :=
  extractACGo (-1) serviceCol

/-! ### The entity records -/

inductive Direction where
  | up
  | down
deriving DecidableEq

inductive RakeLinkStatus where
  | VALID
  | INVALID
deriving DecidableEq

/-- `Service` (timetable.py:472-501), restricted to the fields the
verified components read. -/
structure Service where
  serviceId : List SID := []
  direction : Option Direction := none
  rakeSizeReq : Option Nat := none
  needsACRake : Bool := false
  linkedTo : Option String := none
  events : List SEvent := []
  render : Bool := true
deriving DecidableEq

/-- `Rake` (timetable.py:372-382), restricted to the fields the rake
assignor sets (`isAC` defaults to false, `rakeSize` to 12 cars). -/
structure Rake where
  rakeId : Nat
  isAC : Bool := false
  rakeSize : Nat := 12
deriving DecidableEq

/-- `RakeCycle` (timetable.py:384-425), restricted to the fields the
reconciler reads and writes. -/
structure RakeCycle where
  linkName : String := ""
  serviceIds : List SID := []
  undefinedIds : List (String × SID) := []
  status : RakeLinkStatus := .VALID
  servicePath : Option (List Service) := none
  rake : Option Rake := none
deriving DecidableEq

/-- Truthiness of `svc.rakeSizeReq` (`if svc.rakeSizeReq:`). -/
def pyTruthyNat : Option Nat → Bool
  | none => false
  | some n => n ≠ 0

/-- Falsiness of `rc.servicePath` (`if not rc.servicePath:` is true for
`None` and for the empty list). -/
def pyFalsyPath : Option (List Service) → Bool
  | none => true
  | some [] => true
  | some (_ :: _) => false

/-! ### Rake assignment (`TimeTable.assignRakes`, timetable.py:317-330) -/

/-- The inner loop of `assignRakes`: walk the service path and `break`
at the first service that either needs an AC rake (set the flag, leave
the default car count) or has a truthy car-count requirement (set the
car count, leave the flag). -/
def scanRakeSpec : List Service → Rake → Rake
  | [], r => r
  | s :: rest, r =>
    if s.needsACRake then { r with isAC := true }
    else if pyTruthyNat s.rakeSizeReq then { r with rakeSize := s.rakeSizeReq.getD 0 }
    else scanRakeSpec rest r

/-- `TimeTable.assignRakes` (timetable.py:317-330): one fresh
`Rake(i)` per rake cycle, specialised by `scanRakeSpec` over the cycle's
service path.  `none` models the `TypeError` of iterating a `None`
path. -/
def assignRakes (rcs : List RakeCycle) : Option (List RakeCycle) :=
  rcs.enum.mapM (fun p =>
    match p.2.servicePath with
    | none => none
    | some path => some { p.2 with rake := some (scanRakeSpec path { rakeId := p.1 }) })

/-! ### Linkage graph and chain discovery
(`TimeTable.makeRakeCyclePathsSV`, timetable.py:96-185) -/

/-- `d.values()` of a `pyDict` (one entry per key, in insertion order). -/
def pyValues {κ α : Type} (d : List (κ × α)) : List α := d.map (·.2)

/-- `idMap = {sid: s for s in services for sid in s.serviceId}`
(timetable.py:101). -/
def svcIdMap (services : List Service) : List (SID × Service) :=
  pyDict (services.flatMap (fun s => s.serviceId.map (fun sid => (sid, s))))

/-- The adjacency build of timetable.py:107-139: for every value of
`idMap`, resolve `linkedTo` to an identifier; when it denotes a known
identifier record `next[serviceId[0]] := nextId` and
`prev[nextId] := serviceId[0]`.  Returns `(next, prev)`.  (The source
reads `sv.serviceId[0]`; every value of an `svcIdMap` owns at least one
identifier, so the `none` arm of the `head?` match is unreachable.) -/
def buildAdj (idMap : List (SID × Service)) :
    List (SID × SID) × List (SID × SID) :=
  (pyValues idMap).foldl
    (fun st sv =>
      if pyFalsyStr sv.linkedTo then st
      else
        let nextId := strToSID (pyStrN sv.linkedTo)
        if (pyGet idMap nextId).isNone then st
        else
          match sv.serviceId.head? with
          | none => st
          | some sid => (upsert st.1 sid nextId, upsert st.2 nextId sid))
    ([], [])

/-- `followChain` (timetable.py:143-150), fuelled: follow `next`
pointers from `sid`, never revisiting an identifier in `visited` and
stopping at identifiers absent from `idMap`.  Returns the collected
identifier chain and the grown visited set.  Every recursive call adds
one previously unvisited `idMap` key to `visited`, so any fuel
exceeding the number of unvisited keys is never exhausted
(`followChainF_fuel` below): the fuel is an embedding device, not a
semantic cut-off. -/
def followChainF (idMap : List (SID × Service)) (nx : List (SID × SID)) :
    Nat → SID → List SID → List SID × List SID
  | 0, _, visited => ([], visited)
  | fuel + 1, sid, visited =>
    if sid ∈ visited ∨ pyGet idMap sid = none then ([], visited)
    else
      let visited' := sid :: visited
      match pyGet nx sid with
      | none => ([sid], visited')
      | some nxt =>
        if pyTruthySID (some nxt) then
          let r := followChainF idMap nx fuel nxt visited'
          (sid :: r.1, r.2)
        else ([sid], visited')

/-- `followChain` with always-sufficient fuel. -/
def followChain (idMap : List (SID × Service)) (nx : List (SID × SID))
    (sid : SID) (visited : List SID) : List SID × List SID :=
  followChainF idMap nx (idMap.length + 1) sid visited

/-- One step of the start-node loop of timetable.py:169-183, carrying
`(visited, allCyclesWtt)`: skip visited identifiers, identifiers with a
recorded predecessor, and identifiers without a successor; otherwise
follow the chain and append it when non-empty. -/
def chainFoldStep (idMap : List (SID × Service)) (nx pv : List (SID × SID))
    (st : List SID × List (List SID)) (sid : SID) : List SID × List (List SID) :=
  if st.1.contains sid then st
  else if (pyGet pv sid).isSome then st
  else if (pyGet nx sid).isNone then st
  else
    let r := followChain idMap nx sid st.1
    (r.2, if r.1.isEmpty then st.2 else st.2 ++ [r.1])

/-- The identifier chains produced by `makeRakeCyclePathsSV` on a
service list, in production order. -/
def idChains (services : List Service) : List (List SID) :=
  let idMap := svcIdMap services
  let adj := buildAdj idMap
  ((idMap.map (·.1)).foldl (chainFoldStep idMap adj.1 adj.2) ([], [])).2

/-- `self.allCyclesWtt` after `makeRakeCyclePathsSV(services)`: the
identifier chains with each identifier replaced by `idMap[sid]`
(timetable.py:147, `chain.append(idMap[sid])`; every chain member is an
`idMap` key, so the `filterMap` drops nothing). -/
def allCyclesWtt (services : List Service) : List (List Service) :=
  (idChains services).map (fun c => c.filterMap (pyGet (svcIdMap services)))

/-! ### Reconciliation
(`TimeTable.generateRakeCycles` / `fixPath` / `validateRakeCycles`,
timetable.py:190-221, 224-310, 342-370) -/

/-- `isinstance(sv.serviceId[0], int)` of the sort key at
timetable.py:225-230. -/
def sidIsInt : SID → Bool
  | .num _ => true
  | .ety _ => false

/-- Python tuple order on the sort key
`(isinstance(id, int), id)`: strings sort before ints, ints by value,
strings lexicographically. -/
def sidKeyLe (a b : SID) : Bool :=
  match a, b with
  | .num n, .num m => n ≤ m
  | .ety s, .ety t => s ≤ t
  | .num _, .ety _ => false
  | .ety _, .num _ => true

def svcSortLe (a b : Service) : Bool :=
  sidKeyLe (a.serviceId.head?.getD (.ety "")) (b.serviceId.head?.getD (.ety ""))

/-- Stable insertion of `x` in front of the first element it is `≤`. -/
def insertSorted (le : Service → Service → Bool) (x : Service) :
    List Service → List Service
  | [] => [x]
  | y :: ys => if le x y then x :: y :: ys else y :: insertSorted le x ys

/-- The stable ascending sort of timetable.py:225-230. -/
def sortServices : List Service → List Service
  | [] => []
  | x :: xs => insertSorted svcSortLe x (sortServices xs)

/-- `allServices = {str(s.serviceId[0]): s for s in self.suburbanServices}`
(timetable.py:206); `none` is the IndexError on a service without
identifiers. -/
def svcKeyed (suburban : List Service) : Option (List (String × Service)) :=
  (suburban.mapM (fun (s : Service) =>
    (s.serviceId.head?).map (fun h0 => (sidStr h0, s)))).map pyDict

/-- `TimeTable.fixPath` (timetable.py:190-221).  Returns the status
after the call together with the returned value (`some []` for the
undefined-id branch, `some path` for the summary-reconstruction branch,
`none` — Python `None` — for the fall-through).  The outer `Option` is
a raising execution (IndexError on empty `serviceIds`, failed
`assert`). -/
def fixPath (suburban : List Service) (rc : RakeCycle) :
    Option (RakeLinkStatus × Option (List Service)) := do
  let sid ← rc.serviceIds.head?
  if rc.undefinedIds ≠ [] then
    pure (RakeLinkStatus.INVALID, some [])
  else do
    let allS ← svcKeyed suburban
    let _ ← pyGet allS (sidStr sid)
    if allS.any (fun p => sidStr sid = pyStrN p.2.linkedTo) then do
      let path ← rc.serviceIds.mapM (fun i => pyGet allS (sidStr i))
      pure (rc.status, some path)
    else
      pure (rc.status, none)

/-- `str(rc.serviceIds[0]) == str(path[0].serviceId[0])`
(timetable.py:256); `none` for the raising accesses. -/
def chainMatches (rc : RakeCycle) (path : List Service) : Option Bool := do
  let sid ← rc.serviceIds.head?
  let s0 ← path.head?
  let sid0 ← s0.serviceId.head?
  pure (sidStr sid == sidStr sid0)

/-- The inner chain loop of timetable.py:254-258: the last matching
chain wins (`rc.servicePath = path` on every match, no `break`).
Result `none` (inner) means no chain matched. -/
def assignFromChains (rc : RakeCycle) (cycles : List (List Service)) :
    Option (Option (List Service)) :=
  cycles.foldlM
    (fun acc p => (chainMatches rc p).map (fun m => if m then some p else acc))
    none

/-- Processing of one rake cycle by timetable.py:249-272: try the
chains; on a falsy resulting path run `fixPath` (after the debug
f-string whose evaluation raises on an empty `serviceIds`, and raises
`NameError` on `path` when no chain was ever produced).  The boolean is
`rc.status == INVALID` after the call, i.e. membership in the `invalid`
removal list. -/
def reconLink (cycles : List (List Service)) (suburban : List Service)
    (rc : RakeCycle) : Option (RakeCycle × Bool) := do
  let assigned ← assignFromChains rc cycles
  let sp := match assigned with
            | some p => some p
            | none => rc.servicePath
  if pyFalsyPath sp then do
    let _ ← rc.serviceIds.head?
    if cycles.isEmpty then none
    else do
      let r ← fixPath suburban rc
      pure ({ rc with status := r.1, servicePath := r.2 },
            decide (r.1 = RakeLinkStatus.INVALID))
  else
    pure ({ rc with servicePath := sp }, false)

/-- The chain-linking loop plus the removal of the `invalid` list
(timetable.py:248-275). -/
def linkPass (cycles : List (List Service)) (suburban : List Service)
    (rcs : List RakeCycle) : Option (List RakeCycle) := do
  let l ← rcs.mapM (reconLink cycles suburban)
  pure ((l.filter (fun x => !x.2)).map (·.1))

/-- `"ETY" in str(x)`. -/
def containsETY (x : SID) : Bool := strContains (sidStr x) ("ETY")

/-- `wttPath = [svc.serviceId[0] for svc in rc.servicePath]`
(timetable.py:347); `none` for iterating `None` or an identifier-less
service. -/
def wttPathOf (rc : RakeCycle) : Option (List SID) :=
  match rc.servicePath with
  | none => none
  | some l => l.mapM (fun s => s.serviceId.head?)

/-- The per-cycle test of `validateRakeCycles` (timetable.py:345-367).
`some none`: kept; `some (some wtt)`: recorded as a conflict with the
derived path `wtt`; `none`: a raising execution.  NOTE the source
compares `summaryPathRed1[-1]` where `summaryPathRed1 = summaryPath[:-2]`
— the *third*-from-last declared entry — in the two-trailing-entry
branch. -/
def rcConflict (rc : RakeCycle) : Option (Option (List SID)) := do
  let wtt ← wttPathOf rc
  let summ := rc.serviceIds
  if wtt = summ then pure none
  else if summ.dropLast = wtt then
    match summ.getLast? with
    | none => none
    | some lastE => if containsETY lastE then pure none else pure (some wtt)
  else
    let red1 := summ.dropLast.dropLast
    if red1 = wtt then
      match red1.getLast? with
      | none => none
      | some r1 =>
        if containsETY r1 then
          match summ.getLast? with
          | none => none
          | some l2 => if containsETY l2 then pure none else pure (some wtt)
        else pure (some wtt)
    else pure (some wtt)

/-- `list.remove` of the first structurally equal element (the source
removes by object identity; the embeddings below never contain
duplicate cycles). -/
def pyRemoveFirst (l : List RakeCycle) (x : RakeCycle) : List RakeCycle :=
  match l with
  | [] => []
  | y :: ys => if y = x then ys else y :: pyRemoveFirst ys x

/-- `TimeTable.validateRakeCycles` (timetable.py:342-370): collect the
conflicting links, then remove each conflicted cycle from the active
set.  Returns (remaining cycles, conflict list). -/
def validateRakeCycles (cycles : List RakeCycle) :
    Option (List RakeCycle × List (RakeCycle × List SID)) := do
  let conflicts ← cycles.foldlM
    (fun acc rc => (rcConflict rc).map
      (fun r => match r with
        | none => acc
        | some w => acc ++ [(rc, w)]))
    ([] : List (RakeCycle × List SID))
  pure (conflicts.foldl (fun cs c => pyRemoveFirst cs c.1) cycles, conflicts)

/-- The reconciliation portion of `TimeTable.generateRakeCycles`
(timetable.py:224-288): sort the suburban services (the sort key reads
`sv.serviceId[0]`, raising on an identifier-less service), build the
linkage chains, link each authored cycle to a chain (fixing and
removing invalid ones), then validate against the declared sequences.
Event generation and rake assignment, which follow in the source, are
embedded separately (`generateStationEvents`, `assignRakes`). -/
def generateRakeCyclesRecon (suburban : List Service) (rcs : List RakeCycle) :
    Option (List RakeCycle × List (RakeCycle × List SID)) := do
  if suburban.any (fun s => s.serviceId.isEmpty) then none
  else
    let sorted := sortServices suburban
    let cycles := allCyclesWtt sorted
    let kept ← linkPass cycles sorted rcs
    validateRakeCycles kept

/-! ### Render-predicate evaluation
(`Service.check*Constraint`, timetable.py:504-595, and
`Simulator.applyServiceFilters`, simulator.py:1894-1932) -/

/-- The structured query object of the Service tab.  `inDirection` and
`passingThrough` are truthiness-tested lists (the empty list is the
absent filter); `startStation`, `endStation` and `ac` are
truthiness-tested optional strings. -/
structure Query where
  startStation : Option String := none
  endStation : Option String := none
  inTimePeriod : ℚ × ℚ := (0, 0)
  inDirection : List String := []
  ac : Option String := none
  passingThrough : List String := []

/-- `Service.checkStartStationConstraint` (timetable.py:504-522).
`none` models the `TypeError` of comparing a `None` event time; the
empty-event `none` arm is unreachable from `applyServiceFilters`, which
skips event-less services. -/
def checkStartStationConstraint (qq : Query) (svc : Service) : Option Service :=
  if pyFalsyStr qq.startStation then some svc
  else
    match svc.events with
    | [] => none
    | e0 :: _ =>
      if e0.atStation = pyStrN qq.startStation then
        match e0.atTime with
        | none => none
        | some t =>
          if ¬ (qq.inTimePeriod.1 ≤ t ∧ t ≤ qq.inTimePeriod.2) then
            some { svc with render := svc.render && false }
          else some svc
      else some { svc with render := svc.render && false }

/-- `Service.checkEndStationConstraint` (timetable.py:524-537). -/
def checkEndStationConstraint (qq : Query) (svc : Service) : Option Service :=
  if pyFalsyStr qq.endStation then some svc
  else
    match svc.events.getLast? with
    | none => none
    | some eL =>
      if eL.atStation = pyStrN qq.endStation then
        match eL.atTime with
        | none => none
        | some t =>
          if ¬ (qq.inTimePeriod.1 ≤ t ∧ t ≤ qq.inTimePeriod.2) then
            some { svc with render := svc.render && false }
          else some svc
      else some { svc with render := svc.render && false }

/-- `Service.checkDirectionConstraint` (timetable.py:539-555). -/
def checkDirectionConstraint (qq : Query) (svc : Service) : Option Service :=
  if qq.inDirection = [] then some svc
  else
    let dirMatch := qq.inDirection.any (fun d =>
      (d = "UP" && svc.direction = some .up) ||
      (d = "DOWN" && svc.direction = some .down))
    if ¬ dirMatch then some { svc with render := svc.render && false }
    else some svc

/-- `Service.checkACConstraint` (timetable.py:557-564). -/
def checkACConstraint (qq : Query) (svc : Service) : Option Service :=
  if pyFalsyStr qq.ac || pyStrN qq.ac = "all" then some svc
  else if pyStrN qq.ac = "ac" && !svc.needsACRake then
    some { svc with render := svc.render && false }
  else if pyStrN qq.ac = "nonac" && svc.needsACRake then
    some { svc with render := svc.render && false }
  else some svc

/-- The station loop of `checkPassingThroughConstraint`
(timetable.py:579-592): for the first query station the service does
not pass, or whose last visit time falls outside the window, narrow the
flag and stop.  `stnMapTimes[st][-1]` is the last `atTime` among the
events at `st`; a `None` time raises (`none`). -/
def passingLoop (qq : Query) (svc : Service) : List String → Option Service
  | [] => some svc
  | st :: rest =>
    match (svc.events.filter (fun e => e.atStation = st)).getLast? with
    | none => some { svc with render := svc.render && false }
    | some e =>
      match e.atTime with
      | none => none
      | some t =>
        if ¬ (qq.inTimePeriod.1 ≤ t ∧ t ≤ qq.inTimePeriod.2) then
          some { svc with render := svc.render && false }
        else passingLoop qq svc rest

/-- `Service.checkPassingThroughConstraint` (timetable.py:567-595). -/
def checkPassingThroughConstraint (qq : Query) (svc : Service) : Option Service :=
  let qP := qq.passingThrough.map pyUpper
  if qP = [] then some svc
  else passingLoop qq svc qP

/-- The per-service body of `applyServiceFilters`
(simulator.py:1899-1918): reset the service and its events to visible,
force event-less services invisible, then run the five constraint
checks in source order. -/
def filterService (qq : Query) (svc : Service) : Option Service :=
  let svc1 : Service := { svc with render := true }
  match svc1.events with
  | [] => some { svc1 with render := false }
  | _ :: _ =>
    let svc2 : Service :=
      { svc1 with events := svc1.events.map (fun e => { e with render := true }) }
    (checkDirectionConstraint qq svc2).bind (fun a =>
      (checkACConstraint qq a).bind (fun b =>
        (checkStartStationConstraint qq b).bind (fun c =>
          (checkEndStationConstraint qq c).bind (fun d =>
            checkPassingThroughConstraint qq d))))

/-- The visible-reset of a service performed at the head of the filter
pass body (service flag and all event flags set to `true`); equal by
unfolding to the `svc2` of `filterService`. -/
def resetVisible (s : Service) : Service :=
  { s with
    render := true,
    events := s.events.map (fun e => { e with render := true }) }

/-- A rake cycle as `applyServiceFilters` sees it: the `servicePath`
holds positions into the suburban service list, modelling the source's
object aliasing between `rc.servicePath` members and
`wtt.suburbanServices` members. -/
structure RCView where
  servicePath : Option (List Nat) := none
  render : Bool := true
deriving DecidableEq

/-- `Simulator.applyServiceFilters` (simulator.py:1894-1932): filter
every suburban service, then recompute every rake cycle's flag as
"some service on its (truthy) path is visible". -/
def applyServiceFilters (qq : Query) (svcs : List Service) (rcs : List RCView) :
    Option (List Service × List RCView) := do
  let svcs2 ← svcs.mapM (filterService qq)
  let rcs2 := rcs.map (fun rc =>
    { rc with render :=
        match rc.servicePath with
        | none => false
        | some [] => false
        | some path =>
          path.any (fun i => ((svcs2.get? i).map Service.render).getD false) })
  pure (svcs2, rcs2)

/-! ### Specification-side expressions used in theorem statements -/

/-- The spec's "sum of absolute chainage differences between each
consecutive pair": starting chainage `d`, then the remaining chainages
in order. -/
def specSum : ℚ → List ℚ → ℚ
  | _, [] => 0
  | d, x :: xs => |d - x| + specSum x xs

/-! ### Concrete inputs for counterexamples and witnesses -/

/-- A multi-identifier service linked to its own secondary identifier. -/
def cxMultiSvc : Service :=
  { serviceId := [.num 93001, .num 93002], linkedTo := some "93002" }

/-- Counterexample services for reconciliation: 93001 rolls into 93002. -/
def cxSvc1 : Service := { serviceId := [.num 93001], linkedTo := some "93002" }

def cxSvc2 : Service := { serviceId := [.num 93002] }

/-- An authored itinerary declaring `[93001, 93002, "ETY 5"]` whose
placeholder `"ETY 5"` has no service — a non-empty `undefinedIds`. -/
def cxRcUndef : RakeCycle :=
  { linkName := "Q", serviceIds := [.num 93001, .num 93002, .ety "ETY 5"],
    undefinedIds := [("Q", .ety "ETY 5")] }

/-- An unlinked service carrying only 93001. -/
def cxSvc1b : Service := { serviceId := [.num 93001] }

/-- Validation input for the trailing-placeholder bug: declared
`[93001, "ETY 1", "ETY 2"]`, derived path `[93001]`. -/
def cxRcEty2 : RakeCycle :=
  { linkName := "B", serviceIds := [.num 93001, .ety "ETY 1", .ety "ETY 2"],
    servicePath := some [cxSvc1b] }

/-- A two-row grid: `DADAR / A / "08:00"` above `(blank) / D / "03:00"`
(a departure clocked before its arrival). -/
def cxSheet : WttSheet :=
  { stationAt := fun r => if r = 0 then some ("DADAR") else none,
    indAt := fun r => if r = 0 then some ("A") else
                      if r = 1 then some ("D") else none }

def cxCol : Int → Option String :=
  fun r => if r = 0 then some ("08:00") else
           if r = 1 then some ("03:00") else none

/-- A one-row grid: terminal arrival `DADAR / A / "08:00"` with no
following departure row. -/
def cxSheetTerm : WttSheet :=
  { stationAt := fun r => if r = 0 then some ("DADAR") else none,
    indAt := fun r => if r = 0 then some ("A") else none }

/-- A rake cycle whose path starts with a non-AC 15-car service followed
by an AC service. -/
def cxPathC7 : List Service :=
  [{ serviceId := [.num 93001], rakeSizeReq := some 15 },
   { serviceId := [.num 93002], needsACRake := true, rakeSizeReq := some 12 }]

def cxRcC7 : RakeCycle := { linkName := "X", servicePath := some cxPathC7 }

/-- An unrelated linked pair 90001 → 90002 (a chain that matches no
itinerary starting with 93001). -/
def cxT1 : Service := { serviceId := [.num 90001], linkedTo := some "90002" }

def cxT2 : Service := { serviceId := [.num 90002] }

/-- Witness inputs for the filter pass. -/
def witEvent : SEvent :=
  { atStation := "DADAR", atTime := some 480, eTypeArg := .ARRIVAL, render := false }

def witSvc : Service :=
  { serviceId := [.num 93001], direction := some .up, events := [witEvent],
    render := false }

def witQuery : Query :=
  { startStation := some "DADAR", inTimePeriod := (0, 2000), inDirection := ["UP"] }

/-- The filtered service: everything reset visible. -/
def witSvcOut : Service :=
  { witSvc with render := true, events := [{ witEvent with render := true }] }

/-! ## Theorems -/

/-! ### Time codec lemmas -/

theorem parseHMS_bounds (s : String) (h m sec : Nat)
    (hp : parseHMS s = some (h, m, sec)) : h ≤ 23 ∧ m ≤ 59 ∧ sec ≤ 59 := by
  unfold parseHMS at hp
  split at hp
  case h_2 => exact Option.noConfusion hp
  case h_1 hs ms ss _ =>
    simp only [Option.bind_eq_bind, Option.bind_eq_some, Option.pure_def] at hp
    rcases hp with ⟨a, _, b, _, c, _, hif⟩
    split at hif
    · rename_i hband
      simp only [Bool.and_eq_true, decide_eq_true_eq] at hband
      cases hif
      exact ⟨hband.1.1, hband.1.2, hband.2⟩
    · exact Option.noConfusion hif

theorem parseHM_bounds (s : String) (h m sec : Nat)
    (hp : parseHM s = some (h, m, sec)) : h ≤ 23 ∧ m ≤ 59 ∧ sec ≤ 59 := by
  unfold parseHM at hp
  split at hp
  case h_2 => exact Option.noConfusion hp
  case h_1 hs ms _ =>
    simp only [Option.bind_eq_bind, Option.bind_eq_some, Option.pure_def] at hp
    rcases hp with ⟨a, _, b, _, hif⟩
    split at hif
    · rename_i hband
      simp only [Bool.and_eq_true, decide_eq_true_eq] at hband
      cases hif
      exact ⟨hband.1, hband.2, by omega⟩
    · exact Option.noConfusion hif

theorem parseClock_bounds (s : String) (h m sec : Nat)
    (hp : parseClock s = some (h, m, sec)) : h ≤ 23 ∧ m ≤ 59 ∧ sec ≤ 59 := by
  unfold parseClock at hp
  split at hp
  · rename_i r hr
    cases hp
    exact parseHMS_bounds _ _ _ _ hr
  · exact parseHM_bounds _ _ _ _ hp

theorem parseClock_empty : parseClock "" = none := by decide

/-- Claim C3: for every clock string parsable as `HH:MM` or `HH:MM:SS`
the codec returns minutes-since-midnight + 1440 when that value is
below 165 and the value unchanged otherwise; `"01:10"` codes to 1510
and `"08:00"` to 480; a string parsable in neither format codes to the
absence sentinel. -/
theorem claim_C3_thm :
    (∀ s h m sec, parseClock s = some (h, m, sec) →
      timeToMinutes s =
        some (if minutesSinceMidnight h m sec < 165
              then minutesSinceMidnight h m sec + 1440
              else minutesSinceMidnight h m sec)) ∧
    timeToMinutes "01:10" = some 1510 ∧
    timeToMinutes "08:00" = some 480 ∧
    (∀ s, parseClock s = none → timeToMinutes s = none) := by
  refine ⟨?_, by decide, by decide, ?_⟩
  · intro s h m sec hp
    have hne : s ≠ "" := by
      intro he
      rw [he, parseClock_empty] at hp
      cases hp
    have hred : timeToMinutes s =
        (if minutesSinceMidnight h m sec < 165
         then some (minutesSinceMidnight h m sec + 1440)
         else some (minutesSinceMidnight h m sec)) := by
      unfold timeToMinutes
      rw [if_neg hne, hp]
    rw [hred]
    split_ifs <;> rfl
  · intro s hp
    by_cases he : s = ""
    · unfold timeToMinutes
      rw [if_pos he]
    · unfold timeToMinutes
      rw [if_neg he, hp]

theorem claim_C3_witness :
    parseClock "01:10" = some (1, 10, 0) ∧
    timeToMinutes "01:10" =
      some (if minutesSinceMidnight 1 10 0 < 165
            then minutesSinceMidnight 1 10 0 + 1440
            else minutesSinceMidnight 1 10 0) ∧
    parseClock "banana" = none ∧
    timeToMinutes "banana" = none :=
  ⟨by decide, claim_C3_thm.1 "01:10" 1 10 0 (by decide), by decide,
   claim_C3_thm.2.2.2 "banana" (by decide)⟩

/-- Claim C10: every successfully coded clock value lies in
`[165, 1605)`. -/
theorem claim_C10_thm (s : String) (v : ℚ) (hv : timeToMinutes s = some v) :
    165 ≤ v ∧ v < 1605 := by
  unfold timeToMinutes at hv
  split at hv
  · cases hv
  · split at hv
    · cases hv
    · rename_i h m sec hp
      obtain ⟨hh, hm, hs⟩ := parseClock_bounds s h m sec hp
      have hhq : (h : ℚ) ≤ 23 := by exact_mod_cast hh
      have hmq : (m : ℚ) ≤ 59 := by exact_mod_cast hm
      have hsq : (sec : ℚ) ≤ 59 := by exact_mod_cast hs
      have hh0 : (0 : ℚ) ≤ (h : ℚ) := by positivity
      have hm0 : (0 : ℚ) ≤ (m : ℚ) := by positivity
      have hs0 : (0 : ℚ) ≤ (sec : ℚ) := by positivity
      have hub : minutesSinceMidnight h m sec < 1440 := by
        unfold minutesSinceMidnight
        linarith
      have hlb : 0 ≤ minutesSinceMidnight h m sec := by
        unfold minutesSinceMidnight
        linarith
      have hv2 : (if minutesSinceMidnight h m sec < 165
          then some (minutesSinceMidnight h m sec + 1440)
          else some (minutesSinceMidnight h m sec)) = some v := hv
      split at hv2 <;> rename_i hcmp <;> cases hv2
      · constructor <;> linarith
      · push_neg at hcmp
        constructor <;> linarith

theorem claim_C10_witness : (165 : ℚ) ≤ 480 ∧ (480 : ℚ) < 1605 :=
  claim_C10_thm "08:00" 480 (by decide)

/-! ### Length computation (claim C6) -/

theorem lengthAccum_spec (dmap : String → Option ℚ) :
    ∀ (es : List SEvent) (dprev l : ℚ) (ds : List ℚ),
      es.mapM (fun e => dmap e.atStation) = some ds →
      lengthAccum dmap es dprev l = some (l + specSum dprev ds) := by
  intro es
  induction es with
  | nil =>
    intro dprev l ds h
    simp only [List.mapM_nil, Option.pure_def, Option.some.injEq] at h
    subst h
    simp [lengthAccum, specSum]
  | cons e rest ih =>
    intro dprev l ds h
    rw [List.mapM_cons] at h
    simp only [Option.bind_eq_bind, Option.bind_eq_some, Option.pure_def,
      Option.some.injEq] at h
    rcases h with ⟨d, hd, ds2, hds2, hcons⟩
    subst hcons
    unfold lengthAccum
    rw [hd]
    show lengthAccum dmap rest d (l + |dprev - d|) = _
    rw [ih d (l + |dprev - d|) ds2 hds2,
      show specSum dprev (d :: ds2) = |dprev - d| + specSum d ds2 from rfl]
    congr 1
    ring

/-- Claim C6 (amended): for every non-empty event sequence whose
stations all resolve in the distance map, `computeLengthKm` yields the
sum of absolute chainage differences of consecutive events; on an
empty event sequence the source raises (IndexError on `events[0]`)
rather than yielding zero — see the counterexample — and it is only
invoked after `assert(svc.events)`. -/
theorem claim_C6_thm (dmap : String → Option ℚ) (e0 : SEvent) (es : List SEvent)
    (d0 : ℚ) (ds : List ℚ)
    (h0 : dmap e0.atStation = some d0)
    (hs : es.mapM (fun e => dmap e.atStation) = some ds) :
    computeLengthKm dmap (e0 :: es) = some (specSum d0 ds) := by
  show (match dmap e0.atStation with
        | none => none
        | some d0 => lengthAccum dmap es d0 0) = some (specSum d0 ds)
  rw [h0]
  show lengthAccum dmap es d0 0 = _
  rw [lengthAccum_spec dmap es d0 0 ds hs, zero_add]

/-- Claim C6 counterexample: with zero events the code raises — the
embedding returns the raising sentinel, not length zero. -/
theorem claim_C6_counterexample :
    computeLengthKm distanceMapGet [] = none ∧
    ¬ computeLengthKm distanceMapGet [] = some 0 := by decide

theorem claim_C6_witness :
    computeLengthKm distanceMapGet
      [{ atStation := "DADAR", atTime := some 480, eTypeArg := .ARRIVAL },
       { atStation := "BANDRA", atTime := some 495, eTypeArg := .ARRIVAL }] =
      some (specSum 11 [15]) :=
  claim_C6_thm distanceMapGet _ _ 11 [15] (by decide) (by decide)

/-! ### AC-requirement detection (claim C8) -/

theorem extractACGo_iff :
    ∀ (cs : List String) (a : Int), a ≤ 0 →
      (extractACGo a cs = true ↔
        1 - a ≤ (cs.dropLast.countP hasACKeyword : Int)) := by
  intro cs
  induction cs with
  | nil =>
    intro a ha
    simp only [extractACGo, List.dropLast_nil, List.countP_nil]
    constructor
    · intro hf
      cases hf
    · intro hc
      exfalso
      omega
  | cons c rest ih =>
    intro a ha
    have hne : ¬ a = 1 := by omega
    have hstep : extractACGo a (c :: rest) =
        extractACGo (if hasACKeyword c then a + 1 else a) rest := by
      show (if a = 1 then true
            else extractACGo (if hasACKeyword c then a + 1 else a) rest) = _
      rw [if_neg hne]
    rw [hstep]
    by_cases hit : hasACKeyword c = true
    · rw [if_pos hit]
      by_cases h0 : a = 0
      · subst h0
        cases rest with
        | nil =>
          simp only [extractACGo, List.dropLast_single, List.countP_nil]
          constructor
          · intro hf
            cases hf
          · intro hc
            exfalso
            omega
        | cons r rs =>
          have hL : extractACGo (0 + 1) (r :: rs) = true := by
            show (if (0 + 1 : Int) = 1 then true else _) = true
            rw [if_pos (by omega)]
          rw [hL]
          have hD : (c :: r :: rs).dropLast = c :: (r :: rs).dropLast := rfl
          rw [hD, List.countP_cons_of_pos _ _ hit]
          constructor
          · intro _
            omega
          · intro _
            rfl
      · have ih2 := ih (a + 1) (by omega)
        rw [ih2]
        cases rest with
        | nil =>
          simp only [List.dropLast_single, List.dropLast_nil, List.countP_nil]
          omega
        | cons r rs =>
          have hD : (c :: r :: rs).dropLast = c :: (r :: rs).dropLast := rfl
          rw [hD, List.countP_cons_of_pos _ _ hit]
          omega
    · rw [if_neg hit]
      have ih2 := ih a ha
      rw [ih2]
      cases rest with
      | nil =>
        simp only [List.dropLast_single, List.dropLast_nil, List.countP_nil]
      | cons r rs =>
        have hD : (c :: r :: rs).dropLast = c :: (r :: rs).dropLast := rfl
        rw [hD, List.countP_cons_of_neg _ _ (by simpa using hit)]

/-- Claim C8 (amended): the detector scans the whole column (not just
the header region) and returns true iff at least two cells strictly
before the last cell contain an AC keyword — equivalently, iff there
are two keyword cells and the second one is followed by at least one
further cell.  Two keyword cells alone do not suffice when the second
is the final cell. -/
theorem claim_C8_thm (col : List String) :
    extractACRequirement col = true ↔
      2 ≤ col.dropLast.countP hasACKeyword := by
  unfold extractACRequirement
  rw [extractACGo_iff col (-1) (by omega)]
  omega

/-- Claim C8 counterexample: a column whose two cells both contain the
keyword `"AC"` — at least two keyword occurrences — yet the detector
returns false, refuting the claimed "true iff the keyword occurs in at
least two cells". -/
theorem claim_C8_counterexample :
    extractACRequirement ["AC", "AC"] = false ∧
    2 ≤ (["AC", "AC"].countP hasACKeyword) := by decide

theorem claim_C8_witness : extractACRequirement ["AC", "AC", "x"] = true :=
  (claim_C8_thm ["AC", "AC", "x"]).mpr (by decide)

/-! ### Rake assignment (claim C7) -/

theorem scanRakeSpec_eq (path : List Service) (r : Rake) :
    scanRakeSpec path r =
      match path.find? (fun s => s.needsACRake || pyTruthyNat s.rakeSizeReq) with
      | none => r
      | some s =>
        if s.needsACRake then { r with isAC := true }
        else { r with rakeSize := s.rakeSizeReq.getD 0 } := by
  induction path with
  | nil => rfl
  | cons s rest ih =>
    by_cases hac : s.needsACRake
    · simp [scanRakeSpec, List.find?_cons, hac]
    · by_cases hsz : pyTruthyNat s.rakeSizeReq
      · simp [scanRakeSpec, List.find?_cons, hac, hsz]
      · simp [scanRakeSpec, List.find?_cons, hac, hsz, ih]

theorem mapM_option_length {α β : Type} (f : α → Option β) :
    ∀ (l : List α) (out : List β), l.mapM f = some out → out.length = l.length := by
  intro l
  induction l with
  | nil =>
    intro out h
    simp only [List.mapM_nil, Option.pure_def, Option.some.injEq] at h
    subst h
    rfl
  | cons a rest ih =>
    intro out h
    rw [List.mapM_cons] at h
    simp only [Option.bind_eq_bind, Option.bind_eq_some, Option.pure_def,
      Option.some.injEq] at h
    rcases h with ⟨b, _, out2, hout2, hcons⟩
    subst hcons
    simp [ih out2 hout2]

theorem mapM_option_forall {α β : Type} (f : α → Option β) (P : β → Prop)
    (hf : ∀ a b, f a = some b → P b) :
    ∀ (l : List α) (out : List β), l.mapM f = some out → ∀ b ∈ out, P b := by
  intro l
  induction l with
  | nil =>
    intro out h
    simp only [List.mapM_nil, Option.pure_def, Option.some.injEq] at h
    subst h
    intro b hb
    cases hb
  | cons a rest ih =>
    intro out h
    rw [List.mapM_cons] at h
    simp only [Option.bind_eq_bind, Option.bind_eq_some, Option.pure_def,
      Option.some.injEq] at h
    rcases h with ⟨b, hb, out2, hout2, hcons⟩
    subst hcons
    intro x hx
    rcases List.mem_cons.mp hx with hx | hx
    · subst hx
      exact hf a x hb
    · exact ih out2 hout2 x hx

/-- Claim C7 (amended): rake assignment constructs one fresh `Rake` per
cycle, but its single forward scan stops at the *first* service that
either needs an AC rake or has a truthy car-count requirement:
if that service needs AC, the rake is AC with the default 12-car count
(the car-count requirement is never read); otherwise the rake is
non-AC with that service's car count (later AC services are never
scanned).  The flag is therefore not "true if any service in the path
requires AC". -/
theorem claim_C7_thm :
    (∀ (path : List Service) (r0 : Rake),
      scanRakeSpec path r0 =
        match path.find? (fun s => s.needsACRake || pyTruthyNat s.rakeSizeReq) with
        | none => r0
        | some s =>
          if s.needsACRake then { r0 with isAC := true }
          else { r0 with rakeSize := s.rakeSizeReq.getD 0 }) ∧
    (∀ (rcs out : List RakeCycle), assignRakes rcs = some out →
      out.length = rcs.length ∧ ∀ rc ∈ out, rc.rake.isSome) := by
  constructor
  · exact scanRakeSpec_eq
  · intro rcs out h
    unfold assignRakes at h
    constructor
    · rw [mapM_option_length _ _ _ h, List.enum_length]
    · refine mapM_option_forall _ (fun rc => rc.rake.isSome) ?_ _ _ h
      intro p b hb
      rcases hsp : p.2.servicePath with _ | path <;> rw [hsp] at hb
      · cases hb
      · cases hb
        rfl

/-- Claim C7 counterexample: a path whose first service is non-AC with
a 15-car requirement followed by an AC service — some service in the
path requires AC, yet the constructed rake is non-AC (the scan broke at
the first service's car-count requirement). -/
theorem claim_C7_counterexample :
    assignRakes [cxRcC7] =
      some [{ cxRcC7 with
              rake := some { rakeId := 0, isAC := false, rakeSize := 15 } }] ∧
    cxPathC7.any Service.needsACRake = true := by decide

theorem claim_C7_witness :
    ([{ cxRcC7 with
        rake := some { rakeId := 0, isAC := false, rakeSize := 15 } }] :
      List RakeCycle).length = [cxRcC7].length :=
  (claim_C7_thm.2 [cxRcC7] _ (by decide)).1

/-! ### Trailing-placeholder tolerance (claim C2) -/

/-- Claim C2: the source's two-trailing-entry tolerance tests
`summaryPath[:-2][-1]` — the third-from-last declared entry, which is a
*matched* entry — instead of the second-to-last.  On the declared
sequence `[93001, "ETY 1", "ETY 2"]` with derived chain `[93001]`, both
mismatched trailing entries are stabling placeholders and the code's
own comment ("the non-matches are ety-style sids, Also GREAT") says the
itinerary must be kept, yet a conflict is recorded and the itinerary is
removed from the active set. -/
theorem claim_C2_thm :
    validateRakeCycles [cxRcEty2] = some ([], [(cxRcEty2, [SID.num 93001])]) ∧
    cxRcEty2.serviceIds.dropLast.dropLast = [SID.num 93001] ∧
    containsETY (SID.ety "ETY 1") = true ∧
    containsETY (SID.ety "ETY 2") = true := by decide

/-! ### Event sequencing (claim C4) -/

/-- Claim C4 (amended): a time-matching row whose indicator is `A` and
whose station resolves emits one arrival event at the resolved station,
followed by exactly one departure event at the same station iff the
next row's indicator is `D` and the next cell of the service column is
a valid time; otherwise (terminal arrival) it emits exactly that one
arrival.  No ordering between the paired events' times is guaranteed —
the source performs no time comparison (see the counterexample). -/
theorem claim_C4_thm (sheet : WttSheet) (svcCell : Int → Option String)
    (stations : List String) (events : List SEvent) (rowIdx : Int)
    (tCell st : String)
    (hsearch : searchGroup0 (pyStr (svcCell rowIdx)) = some tCell)
    (hind : sheet.indAt rowIdx = some ("A"))
    (hres : resolveStation sheet stations events rowIdx = some st) :
    emitStep sheet svcCell stations events rowIdx =
      some (events ++ [mkStationEvent st (pyStrip tCell) .ARRIVAL] ++
        (if sheet.indAt (rowIdx + 1) = some ("D") ∧
            rTimeMatch (pyStrip (pyStr (svcCell (rowIdx + 1)))) = true
         then [mkStationEvent st (pyStrip (pyStr (svcCell (rowIdx + 1)))) .DEPARTURE]
         else [])) := by
  simp only [emitStep, hsearch, hres]
  rw [if_pos hind]
  by_cases hD : sheet.indAt (rowIdx + 1) = some ("D")
  · rw [if_pos hD]
    by_cases hT : rTimeMatch (pyStrip (pyStr (svcCell (rowIdx + 1)))) = true
    · rw [if_pos hT, if_pos ⟨hD, hT⟩]
    · rw [if_neg hT, if_neg (by tauto)]
      simp
  · rw [if_neg hD, if_neg (by tauto)]
    simp

/-- Claim C4 counterexample: an arrival row clocked `08:00` followed by
a departure row clocked `03:00` emits the pair, with the departure time
(180) strictly below the arrival time (480) — the paired events need
not have equal or increasing time. -/
theorem claim_C4_counterexample :
    emitStep cxSheet cxCol ["DADAR"] [] 0 =
      some [mkStationEvent "DADAR" "08:00" .ARRIVAL,
            mkStationEvent "DADAR" "03:00" .DEPARTURE] ∧
    (mkStationEvent "DADAR" "08:00" .ARRIVAL).eTypeArg = .ARRIVAL ∧
    (mkStationEvent "DADAR" "03:00" .DEPARTURE).eTypeArg = .DEPARTURE ∧
    (mkStationEvent "DADAR" "08:00" .ARRIVAL).atTime = some 480 ∧
    (mkStationEvent "DADAR" "03:00" .DEPARTURE).atTime = some 180 ∧
    ¬ ((480 : ℚ) ≤ 180) := by decide

theorem claim_C4_witness :
    emitStep cxSheetTerm cxCol ["DADAR"] [] 0 =
      some ([] ++ [mkStationEvent "DADAR" (pyStrip "08:00") .ARRIVAL] ++
        (if cxSheetTerm.indAt (0 + 1) = some ("D") ∧
            rTimeMatch (pyStrip (pyStr (cxCol (0 + 1)))) = true
         then [mkStationEvent "DADAR" (pyStrip (pyStr (cxCol (0 + 1)))) .DEPARTURE]
         else [])) :=
  claim_C4_thm cxSheetTerm cxCol ["DADAR"] [] 0 "08:00" "DADAR"
    (by decide) (by decide) (by decide)

/-! ### Chain discovery (claim C5) -/

theorem pyGet_isSome_of_mem_keys {κ α : Type} [DecidableEq κ]
    (d : List (κ × α)) (k : κ) (hk : k ∈ d.map (·.1)) : (pyGet d k).isSome := by
  rcases List.mem_map.mp hk with ⟨p, hp, rfl⟩
  unfold pyGet
  rcases hf : d.find? (fun q => q.1 = p.1) with _ | q
  · exfalso
    have := List.find?_eq_none.mp hf p hp
    simp at this
  · rw [hf]
    rfl

theorem unvis_decrease (idMap : List (SID × Service)) (sid : SID)
    (visited : List SID) (hv : ¬ sid ∈ visited)
    (hg : ¬ pyGet idMap sid = none) :
    ((idMap.map (·.1)).filter (fun k => decide (¬ k ∈ sid :: visited))).length <
    ((idMap.map (·.1)).filter (fun k => decide (¬ k ∈ visited))).length := by
  have hmem : sid ∈ idMap.map (·.1) := by
    rcases hq : idMap.find? (fun p => p.1 = sid) with _ | q
    · exact absurd (by simp [pyGet, hq]) hg
    · have h1 := List.find?_some hq
      have h2 := List.mem_of_find?_eq_some hq
      have h3 : q.1 = sid := by simpa using h1
      exact h3 ▸ List.mem_map_of_mem (·.1) h2
  have hsub : ∀ t : List SID,
      (t.filter (fun k => decide (¬ k ∈ sid :: visited))).length ≤
      (t.filter (fun k => decide (¬ k ∈ visited))).length := by
    intro t
    refine List.Sublist.length_le (List.monotone_filter_right t ?_)
    intro a ha
    simp only [decide_eq_true_eq, List.mem_cons, not_or] at ha ⊢
    exact ha.2
  obtain ⟨l1, l2, hsplit⟩ := List.append_of_mem hmem
  rw [hsplit]
  simp only [List.filter_append, List.length_append, List.filter_cons]
  have e1 : decide (¬ sid ∈ sid :: visited) = false := by simp
  have e2 : decide (¬ sid ∈ visited) = true := by simpa using hv
  rw [e1, e2, if_neg (by simp : ¬ (false = true)), if_pos rfl]
  simp only [List.length_cons]
  have g1 := hsub l1
  have g2 := hsub l2
  omega

/-- Fuel stability: once the fuel exceeds the number of `idMap` keys
not yet visited, the result of `followChainF` no longer depends on it —
the recursive follow always terminates. -/
theorem followChainF_stable (idMap : List (SID × Service))
    (nx : List (SID × SID)) :
    ∀ (f1 f2 : Nat) (sid : SID) (visited : List SID),
      ((idMap.map (·.1)).filter (fun k => decide (¬ k ∈ visited))).length < f1 →
      ((idMap.map (·.1)).filter (fun k => decide (¬ k ∈ visited))).length < f2 →
      followChainF idMap nx f1 sid visited =
        followChainF idMap nx f2 sid visited := by
  intro f1
  induction f1 with
  | zero =>
    intro f2 sid visited h1 _
    omega
  | succ a ih =>
    intro f2 sid visited h1 h2
    rcases f2 with _ | b
    · omega
    · show followChainF idMap nx (a + 1) sid visited =
        followChainF idMap nx (b + 1) sid visited
      unfold followChainF
      by_cases hg : sid ∈ visited ∨ pyGet idMap sid = none
      · rw [if_pos hg, if_pos hg]
      · rw [if_neg hg, if_neg hg]
        push_neg at hg
        have hdec := unvis_decrease idMap sid visited hg.1 hg.2
        rcases hnx : pyGet nx sid with _ | nxt
        · rfl
        · by_cases ht : pyTruthySID (some nxt) = true
          · simp only [ht, if_true]
            rw [ih b nxt (sid :: visited) (by omega) (by omega)]
          · simp only [Bool.not_eq_true] at ht
            simp only [ht]
            rfl

/-- Each chain's identifiers avoid the initial visited set, are
pairwise distinct, and the final visited set is the chain (reversed)
on top of the initial one. -/
theorem followChainF_spec (idMap : List (SID × Service))
    (nx : List (SID × SID)) :
    ∀ (f : Nat) (sid : SID) (visited : List SID),
      (∀ x ∈ (followChainF idMap nx f sid visited).1, ¬ x ∈ visited) ∧
      (followChainF idMap nx f sid visited).1.Nodup ∧
      (followChainF idMap nx f sid visited).2 =
        (followChainF idMap nx f sid visited).1.reverse ++ visited := by
  intro f
  induction f with
  | zero =>
    intro sid visited
    refine ⟨?_, ?_, ?_⟩ <;> simp [followChainF]
  | succ a ih =>
    intro sid visited
    unfold followChainF
    by_cases hg : sid ∈ visited ∨ pyGet idMap sid = none
    · rw [if_pos hg]
      refine ⟨?_, ?_, ?_⟩ <;> simp
    · rw [if_neg hg]
      push_neg at hg
      rcases hnx : pyGet nx sid with _ | nxt
      · refine ⟨?_, ?_, ?_⟩ <;> simp [hg.1]
      · by_cases ht : pyTruthySID (some nxt) = true
        · simp only [ht, if_true]
          obtain ⟨ihm, ihd, ihv⟩ := ih nxt (sid :: visited)
          refine ⟨?_, ?_, ?_⟩
          · intro x hx
            rcases List.mem_cons.mp hx with hx | hx
            · subst hx
              exact hg.1
            · have := ihm x hx
              simp only [List.mem_cons, not_or] at this
              exact this.2
          · refine List.nodup_cons.mpr ⟨?_, ihd⟩
            intro hmem
            have := ihm sid hmem
            simp at this
          · rw [ihv]
            simp
        · simp only [Bool.not_eq_true] at ht
          simp only [ht]
          refine ⟨?_, ?_, ?_⟩ <;> simp [hg.1]

/-- A follow started at an unvisited, known identifier produces a chain
headed by that identifier. -/
theorem followChainF_head (idMap : List (SID × Service))
    (nx : List (SID × SID)) (f : Nat) (sid : SID) (visited : List SID)
    (hf : 0 < f) (hv : ¬ sid ∈ visited) (hg : ¬ pyGet idMap sid = none) :
    ∃ rest, (followChainF idMap nx f sid visited).1 = sid :: rest := by
  rcases f with _ | a
  · omega
  · unfold followChainF
    rw [if_neg (by tauto)]
    rcases hnx : pyGet nx sid with _ | nxt
    · exact ⟨[], rfl⟩
    · by_cases ht : pyTruthySID (some nxt) = true
      · simp only [ht, if_true]
        exact ⟨_, rfl⟩
      · simp only [Bool.not_eq_true] at ht
        simp only [ht]
        exact ⟨[], rfl⟩

/-- The invariant carried through the start-node loop. -/
theorem chainFold_inv (idMap : List (SID × Service)) (nx pv : List (SID × SID))
    (P : List SID → Prop)
    (hP : ∀ (visited : List SID) (sid : SID),
      ¬ sid ∈ visited → pyGet pv sid = none → (pyGet nx sid).isSome →
      ¬ pyGet idMap sid = none →
      P (followChain idMap nx sid visited).1) :
    ∀ (keys : List SID), (∀ k ∈ keys, ¬ pyGet idMap k = none) →
      ∀ (st : List SID × List (List SID)), (∀ c ∈ st.2, P c) →
      ∀ c ∈ (keys.foldl (chainFoldStep idMap nx pv) st).2, P c := by
  intro keys
  induction keys with
  | nil =>
    intro _ st hst c hc
    exact hst c hc
  | cons k ks ih =>
    intro hkeys st hst
    simp only [List.foldl_cons]
    refine ih (fun x hx => hkeys x (List.mem_cons.mpr (Or.inr hx)))
      (chainFoldStep idMap nx pv st k) ?_
    unfold chainFoldStep
    by_cases h1 : st.1.contains k = true
    · rw [if_pos h1]
      exact hst
    · rw [if_neg h1]
      by_cases h2 : (pyGet pv k).isSome = true
      · rw [if_pos h2]
        exact hst
      · rw [if_neg h2]
        by_cases h3 : (pyGet nx k).isNone = true
        · rw [if_pos h3]
          exact hst
        · rw [if_neg h3]
          intro c hc
          by_cases hemp : (followChain idMap nx k st.1).1.isEmpty = true
          · simp only [hemp, if_true] at hc
            exact hst c hc
          · simp only [hemp, if_false] at hc
            rcases List.mem_append.mp hc with hc | hc
            · exact hst c hc
            · have hc2 : c = (followChain idMap nx k st.1).1 := by
                simpa using hc
              subst hc2
              refine hP st.1 k ?_ ?_ ?_ (hkeys k (List.mem_cons.mpr (Or.inl rfl)))
              · intro hmem
                exact h1 (List.elem_eq_true_of_mem hmem)
              · rcases hg : pyGet pv k with _ | q
                · rfl
                · rw [hg] at h2
                  simp at h2
              · rcases hg : pyGet nx k with _ | q
                · rw [hg] at h3
                  simp at h3
                · simp


/-- Claim C5 (amended): chain discovery terminates — beyond the number
of not-yet-visited identifiers the fuel is irrelevant — it never visits
an identifier twice, every produced chain is a list of pairwise
distinct identifiers headed by a node with no recorded predecessor and
a recorded successor, and a cyclic successor relation is truncated at
the first revisit.  A chain may however repeat a *Service*: a service
owning several identifiers and linked to its own secondary identifier
yields the chain `[s, s]` (see the counterexample), so "no repeated
Service" does not hold as stated. -/
theorem claim_C5_thm :
    (∀ (idMap : List (SID × Service)) (nx : List (SID × SID)) (f : Nat)
        (sid : SID) (visited : List SID),
      ((idMap.map (·.1)).filter (fun k => decide (¬ k ∈ visited))).length < f →
      followChainF idMap nx f sid visited = followChain idMap nx sid visited) ∧
    (∀ (services : List Service), ∀ c ∈ idChains services,
      c.Nodup ∧
      ∃ sid rest, c = sid :: rest ∧
        pyGet (buildAdj (svcIdMap services)).2 sid = none ∧
        (pyGet (buildAdj (svcIdMap services)).1 sid).isSome) := by
  constructor
  · intro idMap nx f sid visited hf
    unfold followChain
    refine followChainF_stable idMap nx f (idMap.length + 1) sid visited hf ?_
    have hle : ((idMap.map (·.1)).filter
        (fun k => decide (¬ k ∈ visited))).length ≤ idMap.length := by
      calc ((idMap.map (·.1)).filter (fun k => decide (¬ k ∈ visited))).length
          ≤ (idMap.map (·.1)).length := List.length_filter_le _ _
        _ = idMap.length := List.length_map _ _
    omega
  · intro services c hc
    unfold idChains at hc
    refine chainFold_inv (svcIdMap services) (buildAdj (svcIdMap services)).1
      (buildAdj (svcIdMap services)).2
      (fun c => c.Nodup ∧ ∃ sid rest, c = sid :: rest ∧
        pyGet (buildAdj (svcIdMap services)).2 sid = none ∧
        (pyGet (buildAdj (svcIdMap services)).1 sid).isSome)
      ?_ ((svcIdMap services).map (·.1)) ?_ ([], []) ?_ c ?_
    · intro visited sid hv hpv hnx hg
      obtain ⟨_, hnodup, _⟩ := followChainF_spec (svcIdMap services)
        (buildAdj (svcIdMap services)).1 ((svcIdMap services).length + 1)
        sid visited
      obtain ⟨rest, hrest⟩ := followChainF_head (svcIdMap services)
        (buildAdj (svcIdMap services)).1 ((svcIdMap services).length + 1)
        sid visited (by omega) hv hg
      exact ⟨hnodup, sid, rest, hrest, hpv, hnx⟩
    · intro k hk
      have := pyGet_isSome_of_mem_keys (svcIdMap services) k hk
      intro hnone
      rw [hnone] at this
      cases this
    · intro c2 hc2
      cases hc2
    · exact hc

/-- Claim C5 counterexample: a single service owning identifiers 93001
and 93002 and linked to 93002 produces the candidate chain `[s, s]` —
a chain with a repeated Service. -/
theorem claim_C5_counterexample :
    allCyclesWtt [cxMultiSvc] = [[cxMultiSvc, cxMultiSvc]] ∧
    ¬ ([cxMultiSvc, cxMultiSvc] : List Service).Nodup := by decide

theorem claim_C5_witness :
    ([SID.num 93001, SID.num 93002] : List SID).Nodup :=
  (claim_C5_thm.2 [cxSvc1, cxSvc2] [SID.num 93001, SID.num 93002] (by decide)).1

/-! ### Undefined-id handling (claim C1) -/

theorem foldAssign_of_no_match (rc : RakeCycle) :
    ∀ (cycles : List (List Service)) (acc res : Option (List Service)),
      (∀ p ∈ cycles, chainMatches rc p ≠ some true) →
      cycles.foldlM
        (fun acc p =>
          (chainMatches rc p).map (fun m => if m then some p else acc))
        acc = some res →
      res = acc := by
  intro cycles
  induction cycles with
  | nil =>
    intro acc res _ h
    simp only [List.foldlM_nil, Option.pure_def, Option.some.injEq] at h
    exact h.symm
  | cons p ps ih =>
    intro acc res hno h
    rw [List.foldlM_cons] at h
    rcases hcm : chainMatches rc p with _ | m
    · rw [hcm] at h
      simp at h
    · have hm : m = false := by
        rcases m with _ | _
        · rfl
        · exact absurd hcm (hno p (List.mem_cons.mpr (Or.inl rfl)))
      subst hm
      rw [hcm] at h
      simp only [Option.map_some', Option.bind_eq_bind, Option.some_bind,
        Bool.false_eq_true, if_false] at h
      exact ih acc res
        (fun q hq => hno q (List.mem_cons.mpr (Or.inr hq))) h

theorem assignFromChains_of_no_match (rc : RakeCycle)
    (cycles : List (List Service)) (res : Option (List Service))
    (hno : ∀ p ∈ cycles, chainMatches rc p ≠ some true)
    (h : assignFromChains rc cycles = some res) : res = none := by
  unfold assignFromChains at h
  exact foldAssign_of_no_match rc cycles none res hno h

/-- Claim C1 (amended): for an authored itinerary with a non-empty
`undefinedIds` that reaches reconciliation without an assigned path,
the invalid-marking and removal happen only when *no* candidate chain's
first service identifier matches the itinerary's first declared
identifier: in that case the pass marks it `INVALID`, flags it for the
`invalid` removal list, and the link pass drops it.  When a matching
chain exists, the chain is assigned and `fixPath` — the only place the
undefined-id rule is applied — never runs, so the itinerary stays in
the active set (see the counterexample): chain matching, not the
undefined-id rule, takes precedence. -/
theorem claim_C1_thm (cycles : List (List Service)) (suburban : List Service)
    (rc out : RakeCycle) (b : Bool)
    (h : reconLink cycles suburban rc = some (out, b))
    (hu : rc.undefinedIds ≠ [])
    (hsp : pyFalsyPath rc.servicePath = true)
    (hnm : ∀ p ∈ cycles, chainMatches rc p ≠ some true) :
    b = true ∧ out.status = .INVALID ∧
    linkPass cycles suburban [rc] = some [] := by
  have horig := h
  unfold reconLink at h
  simp only [Option.bind_eq_bind, Option.bind_eq_some] at h
  rcases h with ⟨assigned, hassigned, hbody⟩
  have hanone : assigned = none :=
    assignFromChains_of_no_match rc cycles assigned hnm hassigned
  subst hanone
  simp only [hsp, if_true] at hbody
  simp only [Option.bind_eq_bind, Option.bind_eq_some] at hbody
  rcases hbody with ⟨sid, hsid, h2⟩
  by_cases hemp : cycles.isEmpty
  · rw [if_pos hemp] at h2
    cases h2
  · rw [if_neg hemp] at h2
    simp only [Option.bind_eq_bind, Option.bind_eq_some] at h2
    rcases h2 with ⟨r, hr, h3⟩
    unfold fixPath at hr
    simp only [Option.bind_eq_bind, Option.bind_eq_some] at hr
    rcases hr with ⟨sid2, hsid2, hr2⟩
    rw [if_pos hu] at hr2
    simp only [Option.pure_def, Option.some.injEq] at hr2
    subst hr2
    simp only [Option.pure_def, Option.some.injEq, Prod.mk.injEq] at h3
    obtain ⟨hout, hb⟩ := h3
    subst hout
    subst hb
    refine ⟨by decide, rfl, ?_⟩
    unfold linkPass
    rw [List.mapM_cons, horig]
    simp [List.mapM.loop]

/-- Claim C1 counterexample: an itinerary declaring the undefined
placeholder `"ETY 5"` — non-empty `undefinedIds` — for which a chain
starting at its first declared identifier 93001 exists: reconciliation
assigns the chain, never marks the itinerary invalid, and validation
keeps it (the trailing `"ETY 5"` passes the one-entry ETY tolerance),
so it survives in the active set with status `VALID`. -/
theorem claim_C1_counterexample :
    generateRakeCyclesRecon [cxSvc1, cxSvc2] [cxRcUndef] =
      some ([{ cxRcUndef with servicePath := some [cxSvc1, cxSvc2] }], []) ∧
    cxRcUndef.undefinedIds ≠ [] ∧
    ({ cxRcUndef with servicePath := some [cxSvc1, cxSvc2] } : RakeCycle).status =
      RakeLinkStatus.VALID := by decide

theorem claim_C1_witness :
    linkPass [[cxT1, cxT2]] [cxSvc1b, cxSvc2, cxT1, cxT2] [cxRcUndef] =
      some [] :=
  (claim_C1_thm [[cxT1, cxT2]] [cxSvc1b, cxSvc2, cxT1, cxT2] cxRcUndef
    { cxRcUndef with status := .INVALID, servicePath := some [] } true
    (by decide) (by decide) (by decide) (by decide)).2.2

/-! ### Render-predicate evaluation (claim C9)

Every constraint check either leaves the service unchanged or sets its
`render` flag to `false` (narrowing: `render && false = false`); no
other field is touched.  The pass itself resets every flag before
checking, so its outcome is a function of the non-flag data only —
hence idempotence. -/

theorem checkStart_shape (qq : Query) (s t : Service)
    (h : checkStartStationConstraint qq s = some t) :
    t = s ∨ t = { s with render := false } := by
  unfold checkStartStationConstraint at h
  split at h
  · cases h
    exact Or.inl rfl
  · split at h
    · cases h
    · split at h
      · split at h
        · cases h
        · split at h
          · cases h
            right
            simp [Bool.and_false]
          · cases h
            exact Or.inl rfl
      · cases h
        right
        simp [Bool.and_false]

theorem checkEnd_shape (qq : Query) (s t : Service)
    (h : checkEndStationConstraint qq s = some t) :
    t = s ∨ t = { s with render := false } := by
  unfold checkEndStationConstraint at h
  split at h
  · cases h
    exact Or.inl rfl
  · split at h
    · cases h
    · split at h
      · split at h
        · cases h
        · split at h
          · cases h
            right
            simp [Bool.and_false]
          · cases h
            exact Or.inl rfl
      · cases h
        right
        simp [Bool.and_false]

theorem checkDirection_shape (qq : Query) (s t : Service)
    (h : checkDirectionConstraint qq s = some t) :
    t = s ∨ t = { s with render := false } := by
  unfold checkDirectionConstraint at h
  dsimp only at h
  split at h
  · cases h
    exact Or.inl rfl
  · split at h
    · cases h
      right
      simp [Bool.and_false]
    · cases h
      exact Or.inl rfl

theorem checkAC_shape (qq : Query) (s t : Service)
    (h : checkACConstraint qq s = some t) :
    t = s ∨ t = { s with render := false } := by
  unfold checkACConstraint at h
  split at h
  · cases h
    exact Or.inl rfl
  · split at h
    · cases h
      right
      simp [Bool.and_false]
    · split at h
      · cases h
        right
        simp [Bool.and_false]
      · cases h
        exact Or.inl rfl

theorem passingLoop_shape (qq : Query) (s : Service) :
    ∀ (l : List String) (t : Service), passingLoop qq s l = some t →
      t = s ∨ t = { s with render := false } := by
  intro l
  induction l with
  | nil =>
    intro t h
    unfold passingLoop at h
    cases h
    exact Or.inl rfl
  | cons st rest ih =>
    intro t h
    unfold passingLoop at h
    split at h
    · cases h
      right
      simp [Bool.and_false]
    · split at h
      · cases h
      · split at h
        · cases h
          right
          simp [Bool.and_false]
        · exact ih t h

theorem checkPassing_shape (qq : Query) (s t : Service)
    (h : checkPassingThroughConstraint qq s = some t) :
    t = s ∨ t = { s with render := false } := by
  unfold checkPassingThroughConstraint at h
  dsimp only at h
  split at h
  · cases h
    exact Or.inl rfl
  · exact passingLoop_shape qq s _ t h

theorem shape_trans (s a t : Service)
    (h1 : a = s ∨ a = { s with render := false })
    (h2 : t = a ∨ t = { a with render := false }) :
    t = s ∨ t = { s with render := false } := by
  rcases h1 with rfl | rfl
  · exact h2
  · rcases h2 with rfl | rfl
    · right
      rfl
    · right
      rfl

theorem checksChain_shape (qq : Query) (s t : Service)
    (h : (checkDirectionConstraint qq s).bind (fun a =>
      (checkACConstraint qq a).bind (fun b =>
        (checkStartStationConstraint qq b).bind (fun c =>
          (checkEndStationConstraint qq c).bind (fun d =>
            checkPassingThroughConstraint qq d)))) = some t) :
    t = s ∨ t = { s with render := false } := by
  rcases Option.bind_eq_some.mp h with ⟨a, ha, h2⟩
  rcases Option.bind_eq_some.mp h2 with ⟨b, hb, h3⟩
  rcases Option.bind_eq_some.mp h3 with ⟨c, hc, h4⟩
  rcases Option.bind_eq_some.mp h4 with ⟨d, hd, h5⟩
  exact shape_trans s d t
    (shape_trans s c d
      (shape_trans s b c
        (shape_trans s a b
          (checkDirection_shape qq s a ha)
          (checkAC_shape qq a b hb))
        (checkStart_shape qq b c hc))
      (checkEnd_shape qq c d hd))
    (checkPassing_shape qq d t h5)

theorem mapSetTrue_idem (l : List SEvent) :
    (l.map (fun e => { e with render := true })).map
        (fun e => { e with render := true }) =
      l.map (fun e => { e with render := true }) := by
  rw [List.map_map]
  rfl

theorem filterService_eq_nil (qq : Query) (s : Service) (hev : s.events = []) :
    filterService qq s = some { s with render := false } := by
  unfold filterService
  rw [show ({ s with render := true } : Service).events = s.events from rfl, hev]

theorem filterService_eq_cons (qq : Query) (s : Service) (hev : s.events ≠ []) :
    filterService qq s =
      (checkDirectionConstraint qq (resetVisible s)).bind
        (fun a => (checkACConstraint qq a).bind (fun b =>
          (checkStartStationConstraint qq b).bind (fun c =>
            (checkEndStationConstraint qq c).bind (fun d =>
              checkPassingThroughConstraint qq d)))) := by
  unfold filterService resetVisible
  dsimp only
  rcases hx : s.events with _ | ⟨e, es⟩
  · exact absurd hx hev
  · rfl

theorem resetVisible_narrow (s : Service) :
    resetVisible { s with render := false } = resetVisible s := rfl

theorem resetVisible_idem (s : Service) :
    resetVisible (resetVisible s) = resetVisible s := by
  unfold resetVisible
  simp [mapSetTrue_idem]

theorem resetVisible_events (s : Service) :
    (resetVisible s).events = s.events.map (fun e => { e with render := true }) :=
  rfl

/-- One filtered service is a fixed point of the filter. -/
theorem filterService_idem (qq : Query) (s t : Service)
    (h : filterService qq s = some t) : filterService qq t = some t := by
  by_cases hev : s.events = []
  · rw [filterService_eq_nil qq s hev] at h
    cases h
    rw [filterService_eq_nil qq _
      (show ({ s with render := false } : Service).events = [] from hev)]
  · rw [filterService_eq_cons qq s hev] at h
    have hmap : s.events.map (fun e => { e with render := true }) ≠ [] := by
      intro hcontra
      exact hev (List.map_eq_nil_iff.mp hcontra)
    rcases checksChain_shape qq _ t h with rfl | rfl
    · rw [filterService_eq_cons qq _
        (show (resetVisible s).events ≠ [] from hmap)]
      rw [resetVisible_idem]
      exact h
    · rw [filterService_eq_cons qq _
        (show ({ resetVisible s with render := false } : Service).events ≠ []
          from hmap)]
      rw [resetVisible_narrow, resetVisible_idem]
      exact h

theorem mapM_option_idem {α : Type} (f : α → Option α)
    (hf : ∀ x y, f x = some y → f y = some y) :
    ∀ (l out : List α), l.mapM f = some out → out.mapM f = some out := by
  intro l
  induction l with
  | nil =>
    intro out h
    simp only [List.mapM_nil, Option.pure_def, Option.some.injEq] at h
    subst h
    rfl
  | cons a rest ih =>
    intro out h
    rw [List.mapM_cons] at h
    simp only [Option.bind_eq_bind, Option.bind_eq_some, Option.pure_def,
      Option.some.injEq] at h
    rcases h with ⟨b, hb, out2, hout2, hcons⟩
    subst hcons
    rw [List.mapM_cons, hf a b hb]
    simp only [Option.bind_eq_bind, Option.some_bind, ih out2 hout2,
      Option.some_bind, Option.pure_def]

/-- Claim C9: the full service-filter pass is idempotent — filtering an
already-filtered state reproduces it exactly, on every event flag,
service flag and rake-cycle flag — and each individual constraint check
can only narrow a service's visibility: a check that leaves the flag
true received it true. -/
theorem claim_C9_thm :
    (∀ (qq : Query) (svcs : List Service) (rcs : List RCView)
        (out : List Service × List RCView),
      applyServiceFilters qq svcs rcs = some out →
      applyServiceFilters qq out.1 out.2 = some out) ∧
    (∀ (qq : Query) (s t : Service),
      checkDirectionConstraint qq s = some t → t.render = true → s.render = true) ∧
    (∀ (qq : Query) (s t : Service),
      checkACConstraint qq s = some t → t.render = true → s.render = true) ∧
    (∀ (qq : Query) (s t : Service),
      checkStartStationConstraint qq s = some t → t.render = true →
        s.render = true) ∧
    (∀ (qq : Query) (s t : Service),
      checkEndStationConstraint qq s = some t → t.render = true →
        s.render = true) ∧
    (∀ (qq : Query) (s t : Service),
      checkPassingThroughConstraint qq s = some t → t.render = true →
        s.render = true) := by
  have hnarrow : ∀ (s t : Service),
      (t = s ∨ t = { s with render := false }) → t.render = true →
      s.render = true := by
    intro s t hshape ht
    rcases hshape with rfl | rfl
    · exact ht
    · cases ht
  refine ⟨?_, ?_, ?_, ?_, ?_, ?_⟩
  · intro qq svcs rcs out h
    unfold applyServiceFilters at h ⊢
    simp only [Option.bind_eq_bind, Option.bind_eq_some, Option.pure_def,
      Option.some.injEq] at h
    rcases h with ⟨svcs2, hsvcs2, hout⟩
    subst hout
    rw [mapM_option_idem (filterService qq) (filterService_idem qq) svcs svcs2
      hsvcs2]
    simp only [Option.bind_eq_bind, Option.some_bind, Option.pure_def,
      Option.some.injEq, Prod.mk.injEq, List.map_map]
    constructor
    · trivial
    · refine List.map_congr_left ?_
      intro rc _
      rfl
  · intro qq s t h
    exact hnarrow s t (checkDirection_shape qq s t h)
  · intro qq s t h
    exact hnarrow s t (checkAC_shape qq s t h)
  · intro qq s t h
    exact hnarrow s t (checkStart_shape qq s t h)
  · intro qq s t h
    exact hnarrow s t (checkEnd_shape qq s t h)
  · intro qq s t h
    exact hnarrow s t (checkPassing_shape qq s t h)

theorem claim_C9_witness :
    applyServiceFilters witQuery [witSvc]
        [{ servicePath := some [0], render := false }] =
      some ([witSvcOut], [{ servicePath := some [0], render := true }]) ∧
    applyServiceFilters witQuery [witSvcOut]
        [{ servicePath := some [0], render := true }] =
      some ([witSvcOut], [{ servicePath := some [0], render := true }]) :=
  ⟨by decide,
   claim_C9_thm.1 witQuery [witSvc] [{ servicePath := some [0], render := false }]
     ([witSvcOut], [{ servicePath := some [0], render := true }]) (by decide)⟩

end WR
